import Mathlib

/-!
# Verification of the unittcms-csvtool CSV import/export subsystem

A shallow embedding, in Lean 4, of `src/main.py`:

* `CSVHandler.export_to_csv` / `CSVHandler.import_from_csv` — the row
  encoder/decoder (`encodeCase`, `parseHeader`, `decodeRow`, `decodeRows`,
  `import_from_csv` below).  The CSV serialization layer itself
  (`csv.writer`/`csv.reader` with delimiter `;` and quoting) is a lossless
  bijection between a row and its on-disk line, so rows are modelled directly
  as `List String`.  Python's right-padding of short rows
  (`row.extend([''] * ...)`) followed by indexing is modelled by the total
  accessor `col` (`List.getD` with default `""`), which agrees with
  pad-then-index at every index the code uses.
* `CSVHandler._get_folder_key` — `getFolderKey`.
* `FolderManager.validate_and_get_folder` — `validate_and_get_folder`,
  with the remote client (`TMSClient`) abstracted as a deterministic oracle
  `TMSEnv` and the remote traffic reified as a `List RemoteCall` so that
  "issues no further remote call" is a provable statement.
* `TMSTool._import_cases_to_folder` / `TMSTool.import_test_cases` —
  `importOne`, `import_cases_to_folder`, `import_test_cases`.

Python string primitives are modelled over ASCII text: `str.strip()` is
`pyStrip` (both-ends removal of whitespace characters), `str.isdigit()` is
`pyIsDigit` (non-empty, all decimal digits), `int(...)` is `pyParseInt`
(surrounding whitespace, optional sign, decimal digits; failure is `none`,
matching a raised `ValueError` that the importer's `except` clause turns
into an empty result), `str(n)` for a non-negative integer is `natRepr`
(decimal representation), and `str.split(c)` is `pySplitOn`.
-/

/-- Python whitespace (ASCII part), by code point: space, tab, LF, VT, FF, CR.
Used by `str.strip()`. -/
def isSpaceCh (c : Char) : Bool :=
  c.toNat == 32 || c.toNat == 9 || c.toNat == 10 || c.toNat == 11 ||
  c.toNat == 12 || c.toNat == 13

/-- Decimal digit test by code point (`'0'` = 48 … `'9'` = 57). -/
def isDigitCh (c : Char) : Bool :=
  48 ≤ c.toNat && c.toNat ≤ 57

/-- Remove trailing whitespace from a character list (the right half of
Python `str.strip()`). -/
def stripRightL : List Char → List Char
  | [] => []
  | c :: rest =>
    match stripRightL rest with
    | [] => if isSpaceCh c then [] else [c]
    | r :: rs => c :: r :: rs

/-- Both-ends strip on a character list (Python `str.strip()`). -/
def stripL (l : List Char) : List Char := stripRightL (l.dropWhile isSpaceCh)

/-- Python `str.strip()`. -/
def pyStrip (s : String) : String := ⟨stripL s.data⟩

/-- Python `str.isdigit()` (ASCII model): non-empty and every character a
decimal digit. -/
def pyIsDigit (s : String) : Bool :=
  !s.data.isEmpty && s.data.all isDigitCh

/-- Value of a list of decimal digit characters, most significant first. -/
def digitsVal (l : List Char) : Nat :=
  l.foldl (fun a c => a * 10 + (c.toNat - 48)) 0

/-- Helper for `pyParseInt`: parse an already-stripped character list as an
optionally signed decimal integer. -/
def pyParseIntL : List Char → Option Int
  | [] => none
  | c :: rest =>
    if c = '-' then
      if !rest.isEmpty && rest.all isDigitCh then some (-(digitsVal rest : Int)) else none
    else if c = '+' then
      if !rest.isEmpty && rest.all isDigitCh then some (digitsVal rest : Int) else none
    else if (c :: rest).all isDigitCh then some (digitsVal (c :: rest) : Int) else none

/-- Python `int(s)` for a string (ASCII model): surrounding whitespace,
then an optional `+`/`-` sign, then one or more decimal digits; anything
else raises `ValueError`, modelled as `none`. -/
def pyParseInt (s : String) : Option Int :=
  pyParseIntL (stripL s.data)

/-- The character of a decimal digit `d < 10`. -/
def digitCh (d : Nat) : Char := Char.ofNat (48 + d)

/-- Decimal digits of `n`, most significant first, with explicit fuel so that
the definition is structurally recursive (fuel `n + 1` always suffices). -/
def natReprAux : Nat → Nat → List Char
  | 0, _ => []
  | fuel + 1, n => if n < 10 then [digitCh n] else natReprAux fuel (n / 10) ++ [digitCh (n % 10)]

/-- Python `str(n)` for a non-negative integer: its decimal representation. -/
def natRepr (n : Nat) : String := ⟨natReprAux (n + 1) n⟩

/-- Python `str(i)` for an integer. -/
def intRepr (i : Int) : String :=
  match i with
  | Int.ofNat n => natRepr n
  | Int.negSucc n => "-" ++ natRepr (n + 1)

/-- Split a character list on a separator character (Python `str.split(sep)`
for a one-character separator): always returns at least one chunk. -/
def splitChL (sep : Char) : List Char → List (List Char)
  | [] => [[]]
  | c :: rest =>
    if c = sep then [] :: splitChL sep rest
    else
      match splitChL sep rest with
      | h :: t => (c :: h) :: t
      | [] => [[c]]

/-- Python `s.split(sep)` for a one-character separator. -/
def pySplitOn (sep : Char) (s : String) : List String :=
  (splitChL sep s.data).map (fun l => (⟨l⟩ : String))

-- ### Basic lemmas about the string primitives

theorem string_mk_eq_mk {l m : List Char} : (⟨l⟩ : String) = ⟨m⟩ ↔ l = m :=
  ⟨fun h => congrArg String.data h, fun h => congrArg String.mk h⟩

theorem string_data_append (s t : String) : (s ++ t).data = s.data ++ t.data := rfl

theorem isDigitCh_not_space {c : Char} (h : isDigitCh c = true) : isSpaceCh c = false := by
  simp only [isDigitCh, Bool.and_eq_true, decide_eq_true_eq] at h
  simp only [isSpaceCh, Bool.or_eq_false_iff, beq_eq_false_iff_ne, ne_eq]
  omega

theorem dropWhile_eq_self_of_head {l : List Char} (h : ∀ c, l.head? = some c → isSpaceCh c = false) :
    l.dropWhile isSpaceCh = l := by
  cases l with
  | nil => rfl
  | cons a l =>
    have := h a rfl
    simp [List.dropWhile_cons, this]

theorem stripRightL_eq_self : ∀ {l : List Char},
    (∀ c, l.getLast? = some c → isSpaceCh c = false) → stripRightL l = l := by
  intro l
  induction l with
  | nil => intro _; rfl
  | cons a l ih =>
    intro h
    cases l with
    | nil =>
      have := h a rfl
      simp [stripRightL, this]
    | cons b m =>
      have htail : stripRightL (b :: m) = b :: m := by
        apply ih
        intro c hc
        apply h
        rwa [List.getLast?_cons_cons]
      have hstep : stripRightL (a :: b :: m) =
          match stripRightL (b :: m) with
          | [] => if isSpaceCh a then [] else [a]
          | r :: rs => a :: r :: rs := rfl
      rw [hstep, htail]

/-- A list whose first and last characters are not whitespace is unchanged
by `stripL`. -/
theorem stripL_eq_self {l : List Char}
    (hhead : ∀ c, l.head? = some c → isSpaceCh c = false)
    (hlast : ∀ c, l.getLast? = some c → isSpaceCh c = false) :
    stripL l = l := by
  unfold stripL
  rw [dropWhile_eq_self_of_head hhead, stripRightL_eq_self hlast]

theorem all_digits_stripL_eq_self {l : List Char} (h : l.all isDigitCh = true) :
    stripL l = l := by
  apply stripL_eq_self
  · intro c hc
    apply isDigitCh_not_space
    have hm : c ∈ l := by
      cases l with
      | nil => simp at hc
      | cons a m => simp at hc; simp [hc]
    exact (List.all_eq_true.mp h) c hm
  · intro c hc
    apply isDigitCh_not_space
    have hm : c ∈ l := List.mem_of_mem_getLast? (Option.mem_def.mpr hc)
    exact (List.all_eq_true.mp h) c hm

theorem head?_dropWhile_not_space : ∀ {l : List Char} {c : Char},
    (l.dropWhile isSpaceCh).head? = some c → isSpaceCh c = false := by
  intro l
  induction l with
  | nil => intro c h; simp at h
  | cons a l ih =>
    intro c h
    by_cases ha : isSpaceCh a = true
    · rw [List.dropWhile_cons_of_pos ha] at h
      exact ih h
    · rw [List.dropWhile_cons_of_neg (by simpa using ha)] at h
      simp only [List.head?_cons, Option.some.injEq] at h
      subst h
      simpa using ha

theorem stripRightL_head? : ∀ {l : List Char} {c : Char},
    (stripRightL l).head? = some c → l.head? = some c := by
  intro l
  induction l with
  | nil => intro c h; simp [stripRightL] at h
  | cons a l ih =>
    intro c h
    have hstep : stripRightL (a :: l) =
        match stripRightL l with
        | [] => if isSpaceCh a then [] else [a]
        | r :: rs => a :: r :: rs := rfl
    rw [hstep] at h
    cases e : stripRightL l with
    | nil =>
      rw [e] at h
      by_cases ha : isSpaceCh a = true
      · simp [ha] at h
      · simp [ha] at h
        simp [h]
    | cons r rs =>
      rw [e] at h
      simp only [List.head?_cons, Option.some.injEq] at h
      simp [h]

theorem stripRightL_getLast?_not_space : ∀ {l : List Char} {c : Char},
    (stripRightL l).getLast? = some c → isSpaceCh c = false := by
  intro l
  induction l with
  | nil => intro c h; simp [stripRightL] at h
  | cons a l ih =>
    intro c h
    have hstep : stripRightL (a :: l) =
        match stripRightL l with
        | [] => if isSpaceCh a then [] else [a]
        | r :: rs => a :: r :: rs := rfl
    rw [hstep] at h
    cases e : stripRightL l with
    | nil =>
      rw [e] at h
      by_cases ha : isSpaceCh a = true
      · simp [ha] at h
      · simp [ha] at h
        subst h
        simpa using ha
    | cons r rs =>
      rw [e] at h
      rw [List.getLast?_cons_cons] at h
      apply ih
      rw [e]
      exact h

theorem stripL_head?_not_space {l : List Char} {c : Char}
    (h : (stripL l).head? = some c) : isSpaceCh c = false :=
  head?_dropWhile_not_space (stripRightL_head? h)

theorem stripL_getLast?_not_space {l : List Char} {c : Char}
    (h : (stripL l).getLast? = some c) : isSpaceCh c = false :=
  stripRightL_getLast?_not_space h

/-- Python's `strip` is idempotent. -/
theorem stripL_idem (l : List Char) : stripL (stripL l) = stripL l := by
  cases e : stripL l with
  | nil => rfl
  | cons a m =>
    rw [← e]
    apply stripL_eq_self
    · intro c hc; exact stripL_head?_not_space hc
    · intro c hc; exact stripL_getLast?_not_space hc

theorem pyStrip_pyStrip (s : String) : pyStrip (pyStrip s) = pyStrip s := by
  simp only [pyStrip, string_mk_eq_mk]
  exact stripL_idem s.data

theorem pyStrip_eq_empty_iff (s : String) : pyStrip s = "" ↔ stripL s.data = [] := by
  constructor
  · intro h; exact string_mk_eq_mk.mp h
  · intro h; exact string_mk_eq_mk.mpr h

-- ### Decimal representation lemmas

theorem digitCh_toNat {d : Nat} (h : d < 10) : (digitCh d).toNat = 48 + d := by
  interval_cases d <;> decide

theorem digitCh_isDigit {d : Nat} (h : d < 10) : isDigitCh (digitCh d) = true := by
  interval_cases d <;> decide

theorem natReprAux_ne_nil : ∀ fuel n, fuel ≠ 0 → natReprAux fuel n ≠ [] := by
  intro fuel n h
  cases fuel with
  | zero => exact absurd rfl h
  | succ f =>
    by_cases h10 : n < 10
    · simp [natReprAux, h10]
    · simp [natReprAux, h10]

theorem natReprAux_all_digits : ∀ fuel n, (natReprAux fuel n).all isDigitCh = true := by
  intro fuel
  induction fuel with
  | zero => intro n; rfl
  | succ f ih =>
    intro n
    by_cases h10 : n < 10
    · simp [natReprAux, h10, digitCh_isDigit h10]
    · have hm : n % 10 < 10 := Nat.mod_lt _ (by omega)
      simp [natReprAux, h10, List.all_append, ih (n / 10), digitCh_isDigit hm]

theorem digitsVal_append_digit (ds : List Char) (c : Char) :
    digitsVal (ds ++ [c]) = 10 * digitsVal ds + (c.toNat - 48) := by
  simp [digitsVal, List.foldl_append]
  omega

theorem digitsVal_natReprAux : ∀ fuel n, n < fuel → digitsVal (natReprAux fuel n) = n := by
  intro fuel
  induction fuel with
  | zero => intro n h; omega
  | succ f ih =>
    intro n h
    by_cases h10 : n < 10
    · simp [natReprAux, h10, digitsVal, digitCh_toNat h10]
    · have hdiv : n / 10 < f := by
        have : n / 10 < n := Nat.div_lt_self (by omega) (by omega)
        omega
      have hm : n % 10 < 10 := Nat.mod_lt _ (by omega)
      rw [natReprAux, if_neg h10, digitsVal_append_digit, ih (n / 10) hdiv,
        digitCh_toNat hm]
      omega

theorem natRepr_data (n : Nat) : (natRepr n).data = natReprAux (n + 1) n := rfl

theorem natRepr_data_ne_nil (n : Nat) : (natRepr n).data ≠ [] :=
  natReprAux_ne_nil (n + 1) n (by omega)

theorem natRepr_all_digits (n : Nat) : (natRepr n).data.all isDigitCh = true :=
  natReprAux_all_digits (n + 1) n

theorem digitsVal_natRepr (n : Nat) : digitsVal (natRepr n).data = n :=
  digitsVal_natReprAux (n + 1) n (by omega)

theorem pyIsDigit_natRepr (n : Nat) : pyIsDigit (natRepr n) = true := by
  simp [pyIsDigit, natRepr_all_digits n]
  simpa using natRepr_data_ne_nil n

theorem stripL_natRepr_data (n : Nat) : stripL (natRepr n).data = (natRepr n).data :=
  all_digits_stripL_eq_self (natRepr_all_digits n)

theorem pyStrip_natRepr (n : Nat) : pyStrip (natRepr n) = natRepr n := by
  simp only [pyStrip]
  cases e : natRepr n with
  | mk l => simp only [string_mk_eq_mk]
            have := stripL_natRepr_data n
            rw [e] at this
            exact this

theorem pyStrip_natRepr_ne_empty (n : Nat) : pyStrip (natRepr n) ≠ "" := by
  rw [pyStrip_natRepr]
  intro h
  exact natRepr_data_ne_nil n (congrArg String.data h)

theorem pyParseIntL_all_digits {l : List Char} (hne : l ≠ []) (hall : l.all isDigitCh = true) :
    pyParseIntL l = some (digitsVal l : Int) := by
  cases l with
  | nil => exact absurd rfl hne
  | cons c rest =>
    have hc : isDigitCh c = true := List.all_eq_true.mp hall c (by simp)
    have hcm : c ≠ '-' := by
      intro h; subst h; revert hc; decide
    have hcp : c ≠ '+' := by
      intro h; subst h; revert hc; decide
    simp only [pyParseIntL, if_neg hcm, if_neg hcp, if_pos hall]

theorem pyParseInt_natRepr (n : Nat) : pyParseInt (natRepr n) = some (n : Int) := by
  unfold pyParseInt
  rw [stripL_natRepr_data,
    pyParseIntL_all_digits (natRepr_data_ne_nil n) (natRepr_all_digits n),
    digitsVal_natRepr]

-- ### Data model of the decoder (`CSVHandler.import_from_csv`)

/-- One step of a stepwise case, as built by the importer:
`{'step': ..., 'result': ..., 'stepNo': ...}`. -/
structure IStep where
  step : String
  result : String
  stepNo : Nat
deriving DecidableEq, Repr

/-- A test case as built by `CSVHandler.import_from_csv` from a header row
(the `current_case` dictionary in the source). -/
structure ICase where
  id : Option String
  title : String
  state : Int
  priority : Int
  type_ : Int
  automationStatus : Int
  description : String
  template : Int
  folderId : Option Int
  folderName : Option String
  steps : List IStep
  preConditions : String
  expectedResults : String
deriving DecidableEq, Repr

/-- Python truthiness of the optional-integer field `folderId`:
`None` and `0` are falsy. -/
def truthyId : Option Int → Bool
  | none => false
  | some i => !(i == 0)

/-- Python truthiness of the optional-string field `folderName`:
`None` and `""` are falsy. -/
def truthyName : Option String → Bool
  | none => false
  | some s => !(s == "")

/-- `CSVHandler._get_folder_key`: the grouping key derived from a case's
declared folder id/name, with Python truthiness on both fields
(`if test_case.get('folderId') and test_case.get('folderName')`).  The
`getD` accesses are guarded by the truthiness tests, exactly as the
Python f-strings only run in branches where the fields are set. -/
def getFolderKey (folderId : Option Int) (folderName : Option String) : String :=
  if truthyId folderId && truthyName folderName then
    folderName.getD "" ++ "|" ++ intRepr (folderId.getD 0)
  else if truthyName folderName then
    folderName.getD "" ++ "|None"
  else
    "unassigned"

/-- The folder key of a decoded case. -/
def getFolderKeyCase (c : ICase) : String := getFolderKey c.folderId c.folderName

-- ### Claims C4 and C10: the folder-key function

/-- C4, counterexample: the claim says that with both `folderId` and
`folderName` present the key is `"{folderName}|{folderId}"`, so
`key(0, "Login")` would have to be `"Login|0"`.  The code tests Python
truthiness (`if test_case.get('folderId') and ...`), and `0` is falsy, so
the key is `"Login|None"` instead. -/
theorem getFolderKey_zero_counterexample :
    getFolderKey (some 0) (some "Login") = "Login|None" ∧
    ("Login|None" : String) ≠ "Login|0" := by
  constructor
  · decide
  · decide

/-- C4, amended: `_get_folder_key` is a pure total function with
`key(None, None) = "unassigned"`, `key(None, "Login") = "Login|None"`,
`key(7, "Login") = "Login|7"`; in general, with a non-empty name and a
NON-ZERO id the key is `"{name}|{id}"`, with only a non-empty name it is
`"{name}|None"`, and a `folderId` of `0` is treated as absent (Python
truthiness), also giving `"{name}|None"`. -/
theorem getFolderKey_spec (i : Int) (nm : String) (hi : i ≠ 0) (hn : nm ≠ "") :
    getFolderKey none none = "unassigned" ∧
    getFolderKey none (some "Login") = "Login|None" ∧
    getFolderKey (some 7) (some "Login") = "Login|7" ∧
    getFolderKey (some i) (some nm) = nm ++ "|" ++ intRepr i ∧
    getFolderKey none (some nm) = nm ++ "|None" ∧
    getFolderKey (some 0) (some nm) = nm ++ "|None" := by
  refine ⟨by decide, by decide, by decide, ?_, ?_, ?_⟩
  · simp [getFolderKey, truthyId, truthyName, hi, hn]
  · simp [getFolderKey, truthyId, truthyName, hn]
  · simp [getFolderKey, truthyId, truthyName, hn]

/-- Witness for `getFolderKey_spec` at `i = 7`, `nm = "Login"`. -/
theorem getFolderKey_spec_witness :
    (7 : Int) ≠ 0 ∧ ("Login" : String) ≠ "" ∧
    getFolderKey (some 7) (some "Login") = "Login" ++ "|" ++ intRepr 7 :=
  ⟨by decide, by decide, (getFolderKey_spec 7 "Login" (by decide) (by decide)).2.2.2.1⟩

/-- C10: with `folderName` absent the key is `"unassigned"` regardless of
`folderId`, and a `folderId` of `0` behaves exactly like an absent
`folderId` for every `folderName`. -/
theorem getFolderKey_absent_name :
    (∀ fid : Option Int, getFolderKey fid none = "unassigned") ∧
    (∀ nm : Option String, getFolderKey (some 0) nm = getFolderKey none nm) := by
  constructor
  · intro fid
    simp [getFolderKey, truthyName]
  · intro nm
    simp [getFolderKey, truthyId]

-- ### The row decoder (`CSVHandler.import_from_csv`)

/-- Column access on a row.  The Python code right-pads short rows with
`''` and then indexes (`row.extend([''] * ...)`; largest index used is 13),
which is exactly `List.getD i ""`. -/
def col (r : List String) (i : Nat) : String := r.getD i ""

/-- `int(cell) if cell.strip() else dflt` — the coercion applied to the
enum columns of a header row (blank means the documented default). -/
def pyIntOr (cell : String) (dflt : Int) : Option Int :=
  if pyStrip cell = "" then some dflt else pyParseInt cell

/-- Parsing of a header row (a row whose id column is non-blank) into a new
`current_case` dictionary, including the seeding of the first payload item
from columns 10/11.  `none` models the `ValueError` raised by `int(...)`
on a non-blank, non-numeric enum cell, which the surrounding
`except Exception` turns into an empty overall result. -/
def parseHeader (r : List String) : Option ICase :=
  (pyIntOr (col r 2) 0).bind fun st =>
  (pyIntOr (col r 3) 1).bind fun pr =>
  (pyIntOr (col r 4) 0).bind fun ty =>
  (pyIntOr (col r 5) 0).bind fun au =>
  (pyIntOr (col r 9) 0).bind fun te =>
  let base : ICase :=
    { id := if pyStrip (col r 0) ≠ "" then some (pyStrip (col r 0)) else none
      title := pyStrip (col r 1)
      state := st, priority := pr, type_ := ty, automationStatus := au
      description := pyStrip (col r 6)
      template := te
      folderId := if pyIsDigit (col r 12) then some (digitsVal (col r 12).data : Int) else none
      folderName := if pyStrip (col r 13) ≠ "" then some (pyStrip (col r 13)) else none
      steps := []
      preConditions := ""
      expectedResults := pyStrip (col r 11) }
  if pyStrip (col r 10) ≠ "" then
    if te = 1 then
      some { base with steps := [⟨pyStrip (col r 10), pyStrip (col r 11), 1⟩] }
    else
      some { base with preConditions := pyStrip (col r 10) }
  else
    some base

/-- The mapping `cases_by_folder`: an insertion-ordered dictionary from
folder key to the list of cases in file order. -/
abbrev Mapping : Type := List (String × List ICase)

/-- Append a case to its folder-key bucket, creating the bucket at the end
if absent (Python dict insertion order). -/
def addCase (m : Mapping) (k : String) (c : ICase) : Mapping :=
  if (List.any m (fun p => p.1 == k)) then
    List.map (fun p => if p.1 == k then (p.1, p.2 ++ [c]) else p) m
  else
    m ++ [(k, [c])]

/-- Flush the accumulator into its bucket (`if current_case: ...append`). -/
def flushCase (m : Mapping) : Option ICase → Mapping
  | none => m
  | some c => addCase m (getFolderKeyCase c) c

/-- `'\n'`-joined append of a precondition line
(`if current_case['preConditions']: ... += '\n' + line else ... = line`). -/
def appendPre (q x : String) : String :=
  if q ≠ "" then q ++ "\n" ++ x else x

/-- Processing of one data row: header rows flush the previous accumulator
and start a new case; continuation rows (blank id) with a non-blank payload
column extend the accumulator; anything else is ignored. -/
def decodeRow (st : Mapping × Option ICase) (r : List String) : Option (Mapping × Option ICase) :=
  let (m, cur) := st
  if pyStrip (col r 0) ≠ "" then
    match parseHeader r with
    | some c => some (flushCase m cur, some c)
    | none => none
  else
    match cur with
    | some c =>
      if pyStrip (col r 10) ≠ "" then
        if c.template = 1 then
          some (m, some { c with
            steps := c.steps ++ [⟨pyStrip (col r 10), pyStrip (col r 11), c.steps.length + 1⟩] })
        else
          some (m, some { c with preConditions := appendPre c.preConditions (pyStrip (col r 10)) })
      else
        some (m, some c)
    | none => some (m, none)

/-- Decode a list of data rows (the CSV file minus its header line) into the
mapping from folder key to cases; `none` models an uncaught `ValueError`
inside the row loop. -/
def decodeRows (rows : List (List String)) : Option Mapping :=
  (rows.foldlM decodeRow (([] : Mapping), (none : Option ICase))).map
    (fun p => flushCase p.1 p.2)

/-- `CSVHandler.import_from_csv` on the row level: any exception in the
loop is caught and turns the result into the empty mapping. -/
def import_from_csv (rows : List (List String)) : Mapping :=
  (decodeRows rows).getD []

-- ### Inversion of header parsing, and claims C7, C8, C9

theorem parseHeader_some_inv {r : List String} {c : ICase} (h : parseHeader r = some c) :
    pyIntOr (col r 2) 0 = some c.state ∧
    pyIntOr (col r 3) 1 = some c.priority ∧
    pyIntOr (col r 4) 0 = some c.type_ ∧
    pyIntOr (col r 5) 0 = some c.automationStatus ∧
    pyIntOr (col r 9) 0 = some c.template ∧
    c.folderId = (if pyIsDigit (col r 12) then some (digitsVal (col r 12).data : Int) else none) ∧
    c.title = pyStrip (col r 1) ∧
    c.expectedResults = pyStrip (col r 11) := by
  unfold parseHeader at h
  cases e2 : pyIntOr (col r 2) 0 with
  | none => rw [e2] at h; simp at h
  | some st =>
  rw [e2] at h
  cases e3 : pyIntOr (col r 3) 1 with
  | none => rw [e3] at h; simp at h
  | some pr =>
  rw [e3] at h
  cases e4 : pyIntOr (col r 4) 0 with
  | none => rw [e4] at h; simp at h
  | some ty =>
  rw [e4] at h
  cases e5 : pyIntOr (col r 5) 0 with
  | none => rw [e5] at h; simp at h
  | some au =>
  rw [e5] at h
  cases e9 : pyIntOr (col r 9) 0 with
  | none => rw [e9] at h; simp at h
  | some te =>
  rw [e9] at h
  simp only [Option.some_bind] at h
  by_cases hpay : pyStrip (col r 10) ≠ ""
  · rw [if_pos hpay] at h
    by_cases hte : te = 1
    · rw [if_pos hte] at h
      have hc := Option.some.inj h
      subst hc
      exact ⟨rfl, rfl, rfl, rfl, rfl, rfl, rfl, rfl⟩
    · rw [if_neg hte] at h
      have hc := Option.some.inj h
      subst hc
      exact ⟨rfl, rfl, rfl, rfl, rfl, rfl, rfl, rfl⟩
  · rw [if_neg hpay] at h
    have hc := Option.some.inj h
    subst hc
    exact ⟨rfl, rfl, rfl, rfl, rfl, rfl, rfl, rfl⟩

theorem pyIntOr_blank {cell : String} {d v : Int} (hb : pyStrip cell = "")
    (h : pyIntOr cell d = some v) : v = d := by
  unfold pyIntOr at h
  rw [if_pos hb] at h
  exact (Option.some.injEq _ _ ▸ h).symm

/-- C7: in a decoded header row, blank enum columns take the documented
defaults (state 0, priority 1, type 0, automationStatus 0, template 0), and
the folder-id column becomes an integer exactly when it satisfies
`str.isdigit()`, and `None` otherwise. -/
theorem parseHeader_defaults {r : List String} {c : ICase} (h : parseHeader r = some c) :
    (pyStrip (col r 2) = "" → c.state = 0) ∧
    (pyStrip (col r 3) = "" → c.priority = 1) ∧
    (pyStrip (col r 4) = "" → c.type_ = 0) ∧
    (pyStrip (col r 5) = "" → c.automationStatus = 0) ∧
    (pyStrip (col r 9) = "" → c.template = 0) ∧
    c.folderId = (if pyIsDigit (col r 12) then some (digitsVal (col r 12).data : Int) else none) := by
  obtain ⟨e2, e3, e4, e5, e9, efid, _, _⟩ := parseHeader_some_inv h
  exact ⟨fun hb => pyIntOr_blank hb e2, fun hb => pyIntOr_blank hb e3,
    fun hb => pyIntOr_blank hb e4, fun hb => pyIntOr_blank hb e5,
    fun hb => pyIntOr_blank hb e9, efid⟩

/-- Witness for `parseHeader_defaults`: an all-blank row decodes (id blank is
irrelevant to the parse itself) with all enum defaults and a null folder id. -/
theorem parseHeader_defaults_witness :
    parseHeader ["7", "T", "", "", "", "", "", "", "", "", "", "", "x1", "", "", ""] =
      some { id := some "7", title := "T", state := 0, priority := 1, type_ := 0,
             automationStatus := 0, description := "", template := 0, folderId := none,
             folderName := none, steps := [], preConditions := "", expectedResults := "" } ∧
    (parseHeader ["7", "T", "", "", "", "", "", "", "", "", "", "", "x1", "", "", ""]).elim True
      (fun c => c.state = 0 ∧ c.priority = 1 ∧ c.type_ = 0 ∧ c.automationStatus = 0 ∧
        c.template = 0 ∧ c.folderId = none) := by
  constructor
  · decide
  · have h : parseHeader ["7", "T", "", "", "", "", "", "", "", "", "", "", "x1", "", "", ""] =
        some { id := some "7", title := "T", state := 0, priority := 1, type_ := 0,
               automationStatus := 0, description := "", template := 0, folderId := none,
               folderName := none, steps := [], preConditions := "", expectedResults := "" } := by
      decide
    obtain ⟨d2, d3, d4, d5, d9, dfid⟩ := parseHeader_defaults h
    rw [h]
    refine ⟨d2 (by decide), d3 (by decide), d4 (by decide), d5 (by decide), d9 (by decide), ?_⟩
    rw [dfid]
    decide

theorem parseHeader_steps_seed {r : List String} {c : ICase} (h : parseHeader r = some c)
    (ht : c.template = 1) (hp : pyStrip (col r 10) ≠ "") :
    c.steps = [⟨pyStrip (col r 10), pyStrip (col r 11), 1⟩] := by
  unfold parseHeader at h
  cases e2 : pyIntOr (col r 2) 0 with
  | none => rw [e2] at h; simp at h
  | some st =>
  rw [e2] at h
  cases e3 : pyIntOr (col r 3) 1 with
  | none => rw [e3] at h; simp at h
  | some pr =>
  rw [e3] at h
  cases e4 : pyIntOr (col r 4) 0 with
  | none => rw [e4] at h; simp at h
  | some ty =>
  rw [e4] at h
  cases e5 : pyIntOr (col r 5) 0 with
  | none => rw [e5] at h; simp at h
  | some au =>
  rw [e5] at h
  cases e9 : pyIntOr (col r 9) 0 with
  | none => rw [e9] at h; simp at h
  | some te =>
  rw [e9] at h
  simp only [Option.some_bind] at h
  rw [if_pos hp] at h
  by_cases hte : te = 1
  · rw [if_pos hte] at h
    have hc := Option.some.inj h
    subst hc
    rfl
  · rw [if_neg hte] at h
    have hc := Option.some.inj h
    subst hc
    exact absurd ht hte

/-- C8: a header row with `template = 1` and a non-blank payload column,
followed by two continuation rows (blank id, non-blank payload), decodes to
a single case whose `steps` has length 3 with `stepNo` 1, 2, 3 in file
order. -/
theorem decode_header_two_continuations
    (h r1 r2 : List String) (c0 : ICase)
    (hid : pyStrip (col h 0) ≠ "")
    (hh : parseHeader h = some c0) (hth : c0.template = 1)
    (hpay : pyStrip (col h 10) ≠ "")
    (h1id : pyStrip (col r1 0) = "") (h1p : pyStrip (col r1 10) ≠ "")
    (h2id : pyStrip (col r2 0) = "") (h2p : pyStrip (col r2 10) ≠ "") :
    ∃ c : ICase, decodeRows [h, r1, r2] = some [(getFolderKeyCase c, [c])] ∧
      c.steps.length = 3 ∧ c.steps.map IStep.stepNo = [1, 2, 3] := by
  have hseed := parseHeader_steps_seed hh hth hpay
  refine ⟨{ c0 with steps :=
      [⟨pyStrip (col h 10), pyStrip (col h 11), 1⟩,
       ⟨pyStrip (col r1 10), pyStrip (col r1 11), 2⟩,
       ⟨pyStrip (col r2 10), pyStrip (col r2 11), 3⟩] }, ?_, by simp, by simp⟩
  have e1 : decodeRow (([] : Mapping), (none : Option ICase)) h = some ([], some c0) := by
    simp [decodeRow, hid, hh, flushCase]
  have e2 : decodeRow (([] : Mapping), some c0) r1 =
      some ([], some { c0 with steps :=
        [⟨pyStrip (col h 10), pyStrip (col h 11), 1⟩,
         ⟨pyStrip (col r1 10), pyStrip (col r1 11), 2⟩] }) := by
    simp [decodeRow, h1id, h1p, hth, hseed]
  have e3 : decodeRow (([] : Mapping), some { c0 with steps :=
        [⟨pyStrip (col h 10), pyStrip (col h 11), 1⟩,
         ⟨pyStrip (col r1 10), pyStrip (col r1 11), 2⟩] }) r2 =
      some ([], some { c0 with steps :=
        [⟨pyStrip (col h 10), pyStrip (col h 11), 1⟩,
         ⟨pyStrip (col r1 10), pyStrip (col r1 11), 2⟩,
         ⟨pyStrip (col r2 10), pyStrip (col r2 11), 3⟩] }) := by
    simp [decodeRow, h2id, h2p, hth]
  simp [decodeRows, List.foldlM, e1, e2, e3, flushCase, addCase]

/-- Witness for `decode_header_two_continuations` on concrete rows. -/
theorem decode_header_two_continuations_witness :
    ∃ c : ICase,
      decodeRows [["1", "Login", "0", "1", "0", "0", "", "", "", "1", "s1", "r1", "", "", "", ""],
                  ["", "", "", "", "", "", "", "", "", "", "s2", "r2", "", "", "", ""],
                  ["", "", "", "", "", "", "", "", "", "", "s3", "r3", "", "", "", ""]] =
        some [(getFolderKeyCase c, [c])] ∧
      c.steps.length = 3 ∧ c.steps.map IStep.stepNo = [1, 2, 3] := by
  exact decode_header_two_continuations _ _ _
    { id := some "1", title := "Login", state := 0, priority := 1, type_ := 0
      automationStatus := 0, description := "", template := 1, folderId := none
      folderName := none, steps := [⟨"s1", "r1", 1⟩], preConditions := ""
      expectedResults := "r1" }
    (by decide) (by decide) (by decide) (by decide) (by decide) (by decide)
    (by decide) (by decide)

/-- A header row (non-blank id column) holding a non-blank cell on which
`int(...)` fails in one of the five integer-coerced enum columns
(state 2, priority 3, type 4, automation_status 5, template 9). -/
def badEnumHeaderRow (r : List String) : Prop :=
  pyStrip (col r 0) ≠ "" ∧
  ∃ i ∈ ([2, 3, 4, 5, 9] : List Nat), pyStrip (col r i) ≠ "" ∧ pyParseInt (col r i) = none

instance (r : List String) : Decidable (badEnumHeaderRow r) := by
  unfold badEnumHeaderRow
  infer_instance

theorem pyIntOr_none {cell : String} {d : Int} (hb : pyStrip cell ≠ "")
    (hp : pyParseInt cell = none) : pyIntOr cell d = none := by
  simp [pyIntOr, hb, hp]

theorem option_bind_none_fun {α β : Type} (o : Option α) :
    (o.bind fun _ => (none : Option β)) = none := by
  cases o <;> rfl

theorem parseHeader_badEnum {r : List String}
    (hbad : ∃ i ∈ ([2, 3, 4, 5, 9] : List Nat), pyStrip (col r i) ≠ "" ∧ pyParseInt (col r i) = none) :
    parseHeader r = none := by
  obtain ⟨i, hmem, hnb, hnone⟩ := hbad
  simp only [List.mem_cons, List.not_mem_nil, or_false] at hmem
  rcases hmem with rfl | rfl | rfl | rfl | rfl <;>
    simp [parseHeader, pyIntOr_none hnb hnone, option_bind_none_fun]

theorem decodeRow_badHeader {st : Mapping × Option ICase} {r : List String}
    (hid : pyStrip (col r 0) ≠ "") (hnone : parseHeader r = none) :
    decodeRow st r = none := by
  obtain ⟨m, cur⟩ := st
  simp [decodeRow, hid, hnone]

theorem foldlM_decodeRow_none {rows : List (List String)}
    (hex : ∃ r ∈ rows, pyStrip (col r 0) ≠ "" ∧ parseHeader r = none) :
    ∀ st, List.foldlM decodeRow st rows = none := by
  induction rows with
  | nil => simp at hex
  | cons a rows ih =>
    intro st
    obtain ⟨r, hr, hid, hnone⟩ := hex
    simp only [List.mem_cons] at hr
    rcases hr with rfl | hr
    · simp [List.foldlM, decodeRow_badHeader hid hnone]
    · cases e : decodeRow st a with
      | none => simp [List.foldlM, e]
      | some st' =>
        simp only [List.foldlM, e, Option.some_bind]
        exact ih ⟨r, hr, hid, hnone⟩ st'

/-- C9, amended: if any HEADER row (non-blank id column) has a non-blank,
non-numeric value in an integer-coerced enum column, the whole import
returns the empty mapping — every case in the file, including those decoded
before the bad row, is dropped.  (Enum columns of continuation rows are
never parsed, see the counterexample.) -/
theorem import_from_csv_bad_header_enum (rows : List (List String))
    (hex : ∃ r ∈ rows, badEnumHeaderRow r) :
    import_from_csv rows = [] := by
  obtain ⟨r, hr, hid, hbad⟩ := hex
  have hnone := parseHeader_badEnum hbad
  unfold import_from_csv decodeRows
  rw [foldlM_decodeRow_none ⟨r, hr, hid, hnone⟩]
  rfl

/-- Witness for `import_from_csv_bad_header_enum`: a file whose first case
decodes fine and whose second header row has `state = "abc"`. -/
theorem import_from_csv_bad_header_enum_witness :
    import_from_csv [["1", "T", "0", "1", "0", "0", "", "", "", "0", "p", "", "", "", "", ""],
                     ["2", "U", "abc", "1", "0", "0", "", "", "", "0", "", "", "", "", "", ""]] = [] := by
  apply import_from_csv_bad_header_enum
  decide

/-- C9, counterexample: the claim speaks of "any data row", but enum columns
are only parsed on header rows.  A continuation row (blank id) carrying the
non-numeric value `"abc"` in the state column is tolerated: the import
returns the decoded case instead of the empty mapping. -/
theorem import_from_csv_bad_enum_continuation_counterexample :
    pyStrip "abc" ≠ "" ∧ pyParseInt "abc" = none ∧
    import_from_csv [["1", "T", "0", "1", "0", "0", "", "", "", "0", "p", "", "", "", "", ""],
                     ["", "", "abc", "", "", "", "", "", "", "", "q", "", "", "", "", ""]] ≠ [] := by
  refine ⟨by decide, by decide, by decide⟩

-- ### The row encoder (`CSVHandler.export_to_csv`)

/-- One step of a remotely fetched case, as consumed by the exporter:
`{'step': ..., 'result': ..., 'caseSteps': {'stepNo': ...}}`. -/
structure ExpStep where
  step : String
  result : String
  stepNo : Nat
deriving DecidableEq, Repr

/-- A test case as fetched from the remote system and handed to
`export_to_csv` (field names follow the JSON payload; the enum fields and
ids are the remote system's non-negative small integers, written to the
CSV as their decimal representations by `csv.writer`). -/
structure ExportCase where
  id : String
  title : String
  state : Nat
  priority : Nat
  type_ : Nat
  automationStatus : Nat
  description : String
  preConditions : String
  expectedResults : String
  template : Nat
  Steps : List ExpStep
  folderId : Option Nat
  folderName : String
  createdAt : String
  updatedAt : String
deriving DecidableEq, Repr

/-- The packed payload cell of a step:
`f"{step.get('caseSteps', {}).get('stepNo', 1)}. {step.get('step', '')}"`. -/
def stepCell (s : ExpStep) : String := natRepr s.stepNo ++ ". " ++ s.step

/-- The 17-column main row of a case (`main_row` in the source) with the
payload columns 10/11 passed in. -/
def mainRow (c : ExportCase) (c10 c11 : String) : List String :=
  [c.id, c.title, natRepr c.state, natRepr c.priority, natRepr c.type_,
   natRepr c.automationStatus, c.description, "", "", natRepr c.template,
   c10, c11,
   (match c.folderId with | none => "" | some n => natRepr n),
   c.folderName, c.createdAt, c.updatedAt, ""]

/-- A continuation row: all 17 columns blank except the payload pair. -/
def contRow (c10 c11 : String) : List String :=
  ["", "", "", "", "", "", "", "", "", "", c10, c11, "", "", "", "", ""]

/-- `export_to_csv` for one case: header row first, one continuation row per
remaining payload item.  The `[]` arms mirror dead code in the source
(`if steps:` under `if case.get('Steps')`, and `if preconditions:` after a
`split` that never returns an empty list). -/
def encodeCase (c : ExportCase) : List (List String) :=
  if c.Steps ≠ [] ∧ c.template = 1 then
    match c.Steps with
    | [] => [mainRow c "" ""]
    | s0 :: rest =>
      mainRow c (stepCell s0) s0.result :: rest.map (fun s => contRow (stepCell s) s.result)
  else if c.preConditions ≠ "" then
    match pySplitOn '\n' c.preConditions with
    | [] => [mainRow c "" ""]
    | p0 :: rest =>
      mainRow c p0 c.expectedResults ::
        rest.filterMap (fun p => if pyStrip p ≠ "" then some (contRow (pyStrip p) "") else none)
  else
    [mainRow c (if c.preConditions ≠ "" then c.preConditions else "") c.expectedResults]

/-- `export_to_csv` for a case list: the data rows, in order (the CSV header
line is skipped by the importer's `next(reader)` and not modelled). -/
def encodeCases (cs : List ExportCase) : List (List String) :=
  (cs.map encodeCase).flatten

-- ### The decoded image of an exported case, and cleanliness

/-- The steps an exported step list decodes back to, numbering from `k`:
the decoder re-derives `stepNo` from the position, and keeps the
`"{stepNo}. "` text that the encoder prepended to the step text. -/
def numberSteps : Nat → List ExpStep → List IStep
  | _, [] => []
  | k, s :: rest => ⟨natRepr k ++ ". " ++ s.step, s.result, k⟩ :: numberSteps (k + 1) rest

/-- `'\n'`-join of a list of lines. -/
def joinNl : List String → String
  | [] => ""
  | [x] => x
  | x :: y :: xs => x ++ "\n" ++ joinNl (y :: xs)

/-- The normalization applied to `preConditions` by an export/import round
trip: split on newlines, strip each line, drop blank lines, re-join with
newlines. -/
def normPre (p : String) : String :=
  joinNl (((pySplitOn '\n' p).map pyStrip).filter (fun x => x ≠ ""))

/-- The case produced by decoding the encoding of `c` (proved in the round
trip theorem): for a stepwise case with steps, the steps keep the prepended
`"{stepNo}. "` prefix and the `preConditions` text is dropped; otherwise
the steps are empty and the `preConditions` text is normalized by
`normPre`. -/
def expICase (c : ExportCase) : ICase :=
  if c.Steps ≠ [] ∧ c.template = 1 then
    { id := some (pyStrip c.id)
      title := c.title
      state := (c.state : Int), priority := (c.priority : Int), type_ := (c.type_ : Int)
      automationStatus := (c.automationStatus : Int)
      description := pyStrip c.description
      template := (c.template : Int)
      folderId := c.folderId.map (fun n => (n : Int))
      folderName := if pyStrip c.folderName ≠ "" then some (pyStrip c.folderName) else none
      steps := numberSteps 1 c.Steps
      preConditions := ""
      expectedResults := match c.Steps with | [] => "" | s0 :: _ => s0.result }
  else
    { id := some (pyStrip c.id)
      title := c.title
      state := (c.state : Int), priority := (c.priority : Int), type_ := (c.type_ : Int)
      automationStatus := (c.automationStatus : Int)
      description := pyStrip c.description
      template := (c.template : Int)
      folderId := c.folderId.map (fun n => (n : Int))
      folderName := if pyStrip c.folderName ≠ "" then some (pyStrip c.folderName) else none
      steps := []
      preConditions := normPre c.preConditions
      expectedResults := pyStrip c.expectedResults }

/-- `s` has no trailing whitespace. -/
def noTrailWS (s : String) : Bool :=
  match s.data.getLast? with
  | none => true
  | some c => !isSpaceCh c

/-- A step text/result pair survives the round trip verbatim: non-empty
step text without trailing whitespace, and a `strip`-invariant result. -/
def stepOk (s : ExpStep) : Prop :=
  s.step ≠ "" ∧ noTrailWS s.step = true ∧ pyStrip s.result = s.result

instance (s : ExpStep) : Decidable (stepOk s) := by
  unfold stepOk
  infer_instance

/-- The step numbers of `l` are `k, k+1, k+2, …` in order. -/
def stepNosFrom : Nat → List ExpStep → Prop
  | _, [] => True
  | k, s :: rest => s.stepNo = k ∧ stepNosFrom (k + 1) rest

instance stepNosFromDec : (k : Nat) → (l : List ExpStep) → Decidable (stepNosFrom k l)
  | _, [] => isTrue trivial
  | k, _ :: rest =>
    have : Decidable (stepNosFrom (k + 1) rest) := stepNosFromDec (k + 1) rest
    inferInstanceAs (Decidable (_ ∧ _))

/-- Cleanliness of an exported case, under which the round trip is exact on
the claim's fields: the template is 0 or 1 (a stepwise case without steps
must carry no preconditions, or the decoder would mistake them for a step),
the id and title are `strip`-invariant and the id non-blank, the step
numbers are `1, 2, 3, …` in order, and each step is `stepOk`. -/
def CleanCase (c : ExportCase) : Prop :=
  (c.template = 0 ∨ (c.template = 1 ∧ (c.Steps ≠ [] ∨ c.preConditions = ""))) ∧
  pyStrip c.id ≠ "" ∧
  pyStrip c.title = c.title ∧
  stepNosFrom 1 c.Steps ∧
  (∀ s ∈ c.Steps, stepOk s)

instance (c : ExportCase) : Decidable (CleanCase c) := by
  unfold CleanCase
  infer_instance

/-- Group a list of decoded cases by folder key, in order — the mapping the
importer builds. -/
def groupCases (l : List ICase) : Mapping :=
  l.foldl (fun m c => addCase m (getFolderKeyCase c) c) []

-- ### Helper lemmas for the round trip

theorem string_ne_empty_iff (s : String) : s ≠ "" ↔ s.data ≠ [] := by
  constructor
  · intro h hc
    apply h
    cases s with
    | mk d => cases hc; rfl
  · intro h hc
    subst hc
    exact h rfl

theorem pyStrip_eq_self_iff (s : String) : pyStrip s = s ↔ stripL s.data = s.data := by
  cases s with
  | mk d => exact string_mk_eq_mk

theorem string_nl_append_ne_empty (q x : String) : q ++ "\n" ++ x ≠ "" := by
  rw [string_ne_empty_iff]
  intro h
  have : (q ++ "\n" ++ x).data = q.data ++ '\n' :: x.data := by
    simp [string_data_append]
  rw [this] at h
  simp at h

theorem pyIntOr_natRepr (n : Nat) (d : Int) : pyIntOr (natRepr n) d = some (n : Int) := by
  unfold pyIntOr
  rw [if_neg (pyStrip_natRepr_ne_empty n)]
  exact pyParseInt_natRepr n

theorem pyIsDigit_empty : pyIsDigit "" = false := rfl

theorem stepCell_data (s : ExpStep) :
    (stepCell s).data = (natRepr s.stepNo).data ++ '.' :: ' ' :: s.step.data := by
  show ((natRepr s.stepNo ++ ". ") ++ s.step).data = _
  rw [string_data_append, string_data_append]
  simp

theorem stepCell_ne_empty (s : ExpStep) : stepCell s ≠ "" := by
  rw [string_ne_empty_iff, stepCell_data]
  intro h
  have := congrArg List.length h
  simp at this

theorem pyStrip_stepCell (s : ExpStep) (h1 : s.step ≠ "") (h2 : noTrailWS s.step = true) :
    pyStrip (stepCell s) = stepCell s := by
  rw [pyStrip_eq_self_iff, stepCell_data]
  have hd := natRepr_data_ne_nil s.stepNo
  have hsd := (string_ne_empty_iff s.step).mp h1
  apply stripL_eq_self
  · intro ch hch
    cases e : (natRepr s.stepNo).data with
    | nil => exact absurd e hd
    | cons a l =>
      rw [e, List.cons_append, List.head?_cons, Option.some.injEq] at hch
      apply isDigitCh_not_space
      have hall := natRepr_all_digits s.stepNo
      rw [e] at hall
      rw [← hch]
      exact List.all_eq_true.mp hall a (by simp)
  · intro ch hch
    have : ('.' :: ' ' :: s.step.data) = ['.', ' '] ++ s.step.data := rfl
    rw [this, ← List.append_assoc] at hch
    rw [List.getLast?_append_of_ne_nil _ hsd] at hch
    unfold noTrailWS at h2
    rw [hch] at h2
    simpa using h2

theorem pyStrip_stepCell_ne_empty (s : ExpStep) (h1 : s.step ≠ "") (h2 : noTrailWS s.step = true) :
    pyStrip (stepCell s) ≠ "" := by
  rw [pyStrip_stepCell s h1 h2]
  exact stepCell_ne_empty s

-- rfl lemmas for the columns of the encoder's rows
theorem col_mainRow_0 (c : ExportCase) (c10 c11 : String) : col (mainRow c c10 c11) 0 = c.id := rfl

theorem col_mainRow_1 (c : ExportCase) (c10 c11 : String) : col (mainRow c c10 c11) 1 = c.title := rfl

theorem col_mainRow_2 (c : ExportCase) (c10 c11 : String) : col (mainRow c c10 c11) 2 = natRepr c.state := rfl

theorem col_mainRow_3 (c : ExportCase) (c10 c11 : String) : col (mainRow c c10 c11) 3 = natRepr c.priority := rfl

theorem col_mainRow_4 (c : ExportCase) (c10 c11 : String) : col (mainRow c c10 c11) 4 = natRepr c.type_ := rfl

theorem col_mainRow_5 (c : ExportCase) (c10 c11 : String) : col (mainRow c c10 c11) 5 = natRepr c.automationStatus := rfl

theorem col_mainRow_6 (c : ExportCase) (c10 c11 : String) : col (mainRow c c10 c11) 6 = c.description := rfl

theorem col_mainRow_9 (c : ExportCase) (c10 c11 : String) : col (mainRow c c10 c11) 9 = natRepr c.template := rfl

theorem col_mainRow_10 (c : ExportCase) (c10 c11 : String) : col (mainRow c c10 c11) 10 = c10 := rfl

theorem col_mainRow_11 (c : ExportCase) (c10 c11 : String) : col (mainRow c c10 c11) 11 = c11 := rfl

theorem col_mainRow_12 (c : ExportCase) (c10 c11 : String) :
    col (mainRow c c10 c11) 12 = (match c.folderId with | none => "" | some n => natRepr n) := rfl

theorem col_mainRow_13 (c : ExportCase) (c10 c11 : String) : col (mainRow c c10 c11) 13 = c.folderName := rfl

theorem col_contRow_0 (c10 c11 : String) : col (contRow c10 c11) 0 = "" := rfl

theorem col_contRow_10 (c10 c11 : String) : col (contRow c10 c11) 10 = c10 := rfl

theorem col_contRow_11 (c10 c11 : String) : col (contRow c10 c11) 11 = c11 := rfl

/-- The case `parseHeader` constructs from the main row of an exported case
(before any cleanliness assumptions). -/
def headerImage (c : ExportCase) (c10 c11 : String) : ICase :=
  let base : ICase :=
    { id := if pyStrip c.id ≠ "" then some (pyStrip c.id) else none
      title := pyStrip c.title
      state := (c.state : Int), priority := (c.priority : Int), type_ := (c.type_ : Int)
      automationStatus := (c.automationStatus : Int)
      description := pyStrip c.description
      template := (c.template : Int)
      folderId := c.folderId.map (fun n => (n : Int))
      folderName := if pyStrip c.folderName ≠ "" then some (pyStrip c.folderName) else none
      steps := []
      preConditions := ""
      expectedResults := pyStrip c11 }
  if pyStrip c10 ≠ "" then
    if (c.template : Int) = 1 then
      { base with steps := [⟨pyStrip c10, pyStrip c11, 1⟩] }
    else
      { base with preConditions := pyStrip c10 }
  else
    base

theorem parseHeader_mainRow (c : ExportCase) (c10 c11 : String) :
    parseHeader (mainRow c c10 c11) = some (headerImage c c10 c11) := by
  unfold parseHeader headerImage
  rw [col_mainRow_2, col_mainRow_3, col_mainRow_4, col_mainRow_5, col_mainRow_9,
    pyIntOr_natRepr, pyIntOr_natRepr, pyIntOr_natRepr, pyIntOr_natRepr, pyIntOr_natRepr]
  simp only [Option.some_bind]
  rw [col_mainRow_0, col_mainRow_1, col_mainRow_6, col_mainRow_10, col_mainRow_11,
    col_mainRow_12, col_mainRow_13]
  cases c.folderId with
  | none =>
    simp only [pyIsDigit_empty, Bool.false_eq_true, if_false, Option.map_none']
    by_cases h10 : pyStrip c10 = "" <;> by_cases ht : (c.template : Int) = 1 <;> simp [h10, ht]
  | some n =>
    simp only [pyIsDigit_natRepr, digitsVal_natRepr, if_true, Option.map_some']
    by_cases h10 : pyStrip c10 = "" <;> by_cases ht : (c.template : Int) = 1 <;> simp [h10, ht]

theorem pyStrip_empty : pyStrip "" = "" := rfl

theorem decodeRow_mainRow (m : Mapping) (cur : Option ICase) (c : ExportCase)
    (c10 c11 : String) (hid : pyStrip c.id ≠ "") :
    decodeRow (m, cur) (mainRow c c10 c11) =
      some (flushCase m cur, some (headerImage c c10 c11)) := by
  simp [decodeRow, col_mainRow_0, hid, parseHeader_mainRow]

theorem decodeRow_contRow_step (m : Mapping) (cur : ICase) (c10 c11 : String)
    (hcur : cur.template = 1) (hp : pyStrip c10 ≠ "") :
    decodeRow (m, some cur) (contRow c10 c11) =
      some (m, some { cur with
        steps := cur.steps ++ [⟨pyStrip c10, pyStrip c11, cur.steps.length + 1⟩] }) := by
  unfold decodeRow
  rw [col_contRow_0, col_contRow_10, col_contRow_11]
  simp [pyStrip_empty, hcur, hp]

theorem decodeRow_contRow_pre (m : Mapping) (cur : ICase) (c10 c11 : String)
    (hcur : cur.template ≠ 1) (hp : pyStrip c10 ≠ "") :
    decodeRow (m, some cur) (contRow c10 c11) =
      some (m, some { cur with
        preConditions := appendPre cur.preConditions (pyStrip c10) }) := by
  unfold decodeRow
  rw [col_contRow_0, col_contRow_10]
  simp [pyStrip_empty, hcur, hp]

theorem decode_cont_steps : ∀ (ss : List ExpStep) (k : Nat) (cur : ICase) (m : Mapping)
    (tail : List (List String)),
    cur.template = 1 → cur.steps.length = k → stepNosFrom (k + 1) ss → (∀ s ∈ ss, stepOk s) →
    List.foldlM decodeRow (m, some cur) ((ss.map fun s => contRow (stepCell s) s.result) ++ tail) =
    List.foldlM decodeRow (m, some { cur with steps := cur.steps ++ numberSteps (k + 1) ss }) tail := by
  intro ss
  induction ss with
  | nil =>
    intro k cur m tail h1 h2 h3 h4
    simp [numberSteps]
  | cons s ss ih =>
    intro k cur m tail h1 h2 h3 h4
    obtain ⟨hno, hrest⟩ := h3
    obtain ⟨hs1, hs2, hs3⟩ := h4 s (by simp)
    rw [List.map_cons, List.cons_append, List.foldlM_cons,
      decodeRow_contRow_step m cur _ _ h1 (pyStrip_stepCell_ne_empty s hs1 hs2)]
    rw [pyStrip_stepCell s hs1 hs2, hs3, h2]
    show List.foldlM decodeRow
        (m, some { cur with steps := cur.steps ++ [⟨stepCell s, s.result, k + 1⟩] })
        ((ss.map fun s => contRow (stepCell s) s.result) ++ tail) = _
    rw [ih (k + 1) _ m tail (by simp [h1]) (by simp [h2]) hrest
      (fun x hx => h4 x (by simp [hx]))]
    have hcell : stepCell s = natRepr (k + 1) ++ ". " ++ s.step := by
      unfold stepCell
      rw [hno]
    rw [hcell]
    simp [numberSteps, List.append_assoc]

theorem decode_cont_pre : ∀ (ps : List String) (cur : ICase) (m : Mapping)
    (tail : List (List String)),
    cur.template ≠ 1 → (∀ p ∈ ps, pyStrip p = p ∧ p ≠ "") →
    List.foldlM decodeRow (m, some cur) ((ps.map fun q => contRow q "") ++ tail) =
    List.foldlM decodeRow
      (m, some { cur with preConditions := ps.foldl appendPre cur.preConditions }) tail := by
  intro ps
  induction ps with
  | nil =>
    intro cur m tail h1 h2
    simp
  | cons p ps ih =>
    intro cur m tail h1 h2
    obtain ⟨hp1, hp2⟩ := h2 p (by simp)
    rw [List.map_cons, List.cons_append, List.foldlM_cons,
      decodeRow_contRow_pre m cur _ _ h1 (by rw [hp1]; exact hp2)]
    rw [hp1]
    show List.foldlM decodeRow
        (m, some { cur with preConditions := appendPre cur.preConditions p })
        ((ps.map fun q => contRow q "") ++ tail) = _
    rw [ih _ m tail (by simp [h1]) (fun x hx => h2 x (by simp [hx]))]
    simp [List.foldl_cons]

theorem filterMap_pre (rest : List String) :
    rest.filterMap (fun p => if pyStrip p ≠ "" then some (contRow (pyStrip p) "") else none) =
    ((rest.map pyStrip).filter (fun q => q ≠ "")).map (fun q => contRow q "") := by
  induction rest with
  | nil => rfl
  | cons p rest ih =>
    by_cases hp : pyStrip p = ""
    · simpa [List.filterMap_cons, List.filter_cons, hp] using ih
    · simpa [List.filterMap_cons, List.filter_cons, hp] using ih

theorem foldl_appendPre (xs : List String) : ∀ (q : String), (∀ x ∈ xs, x ≠ "") →
    xs.foldl appendPre q = if q = "" then joinNl xs else joinNl (q :: xs) := by
  induction xs with
  | nil =>
    intro q _
    by_cases hq : q = "" <;> simp [hq, joinNl]
  | cons x xs ih =>
    intro q hxs
    have hx : x ≠ "" := hxs x (by simp)
    rw [List.foldl_cons]
    by_cases hq : q = ""
    · subst hq
      have : appendPre "" x = x := by simp [appendPre]
      rw [this, ih x (fun y hy => hxs y (by simp [hy])), if_neg hx, if_pos rfl]
    · have hstep : appendPre q x = q ++ "\n" ++ x := by simp [appendPre, hq]
      rw [hstep, ih _ (fun y hy => hxs y (by simp [hy])),
        if_neg (string_nl_append_ne_empty q x), if_neg hq]
      cases xs with
      | nil => simp [joinNl]
      | cons y ys => simp [joinNl, String.append_assoc]

theorem splitChL_ne_nil (sep : Char) : ∀ l : List Char, splitChL sep l ≠ [] := by
  intro l
  induction l with
  | nil => simp [splitChL]
  | cons c rest ih =>
    by_cases hc : c = sep
    · simp [splitChL, hc]
    · cases e : splitChL sep rest with
      | nil => exact absurd e ih
      | cons h t => simp [splitChL, hc, e]

theorem pySplitOn_ne_nil (sep : Char) (s : String) : pySplitOn sep s ≠ [] := by
  unfold pySplitOn
  intro h
  exact splitChL_ne_nil sep s.data (List.map_eq_nil_iff.mp h)

theorem normPre_empty : normPre "" = "" := rfl

theorem headerImage_simple (c : ExportCase) (p0 c11 : String) (ht : (c.template : Int) ≠ 1) :
    headerImage c p0 c11 =
      { id := if pyStrip c.id ≠ "" then some (pyStrip c.id) else none
        title := pyStrip c.title
        state := (c.state : Int), priority := (c.priority : Int), type_ := (c.type_ : Int)
        automationStatus := (c.automationStatus : Int)
        description := pyStrip c.description
        template := (c.template : Int)
        folderId := c.folderId.map (fun n => (n : Int))
        folderName := if pyStrip c.folderName ≠ "" then some (pyStrip c.folderName) else none
        steps := []
        preConditions := pyStrip p0
        expectedResults := pyStrip c11 } := by
  unfold headerImage
  by_cases hq : pyStrip p0 = ""
  · simp [hq]
  · simp [hq, ht]

theorem headerImage_stepwise (c : ExportCase) (s0 : ExpStep) (ht : (c.template : Int) = 1)
    (h1 : s0.step ≠ "") (h2 : noTrailWS s0.step = true) :
    headerImage c (stepCell s0) s0.result =
      { id := if pyStrip c.id ≠ "" then some (pyStrip c.id) else none
        title := pyStrip c.title
        state := (c.state : Int), priority := (c.priority : Int), type_ := (c.type_ : Int)
        automationStatus := (c.automationStatus : Int)
        description := pyStrip c.description
        template := (c.template : Int)
        folderId := c.folderId.map (fun n => (n : Int))
        folderName := if pyStrip c.folderName ≠ "" then some (pyStrip c.folderName) else none
        steps := [⟨pyStrip (stepCell s0), pyStrip s0.result, 1⟩]
        preConditions := ""
        expectedResults := pyStrip s0.result } := by
  unfold headerImage
  simp [pyStrip_stepCell_ne_empty s0 h1 h2, ht]

theorem decode_encodeCase (c : ExportCase) (hc : CleanCase c) (m : Mapping) (cur : Option ICase)
    (tail : List (List String)) :
    List.foldlM decodeRow (m, cur) (encodeCase c ++ tail) =
    List.foldlM decodeRow (flushCase m cur, some (expICase c)) tail := by
  obtain ⟨htemp, hid, htitle, hnos, hsteps⟩ := hc
  by_cases hA : c.Steps ≠ [] ∧ c.template = 1
  · obtain ⟨hne, ht1⟩ := hA
    cases e : c.Steps with
    | nil => exact absurd e hne
    | cons s0 rest =>
      obtain ⟨h1, h2, h3⟩ := hsteps s0 (by rw [e]; simp)
      have hno : s0.stepNo = 1 := by rw [e] at hnos; exact hnos.1
      have hrest : stepNosFrom 2 rest := by rw [e] at hnos; exact hnos.2
      have htc : (c.template : Int) = 1 := by rw [ht1]; rfl
      unfold encodeCase
      rw [if_pos ⟨hne, ht1⟩, e]
      rw [List.cons_append, List.foldlM_cons, decodeRow_mainRow m cur c _ _ hid]
      simp only [Option.bind_eq_bind, Option.some_bind]
      rw [headerImage_stepwise c s0 htc h1 h2, pyStrip_stepCell s0 h1 h2, h3]
      rw [decode_cont_steps rest 1 _ (flushCase m cur) tail (by simp [htc]) (by simp) hrest
        (fun x hx => hsteps x (by rw [e]; simp [hx]))]
      have hcell : stepCell s0 = natRepr 1 ++ ". " ++ s0.step := by
        unfold stepCell
        rw [hno]
      unfold expICase
      simp [e, ht1, numberSteps, hcell, htitle, hid]
  · have henc : encodeCase c ++ tail =
        (if c.preConditions ≠ "" then
          match pySplitOn '\n' c.preConditions with
          | [] => [mainRow c "" ""]
          | p0 :: rest =>
            mainRow c p0 c.expectedResults ::
              rest.filterMap (fun p => if pyStrip p ≠ "" then some (contRow (pyStrip p) "") else none)
        else [mainRow c (if c.preConditions ≠ "" then c.preConditions else "") c.expectedResults]) ++ tail := by
      unfold encodeCase
      rw [if_neg hA]
    have hexp : expICase c =
        { id := some (pyStrip c.id)
          title := c.title
          state := (c.state : Int), priority := (c.priority : Int), type_ := (c.type_ : Int)
          automationStatus := (c.automationStatus : Int)
          description := pyStrip c.description
          template := (c.template : Int)
          folderId := c.folderId.map (fun n => (n : Int))
          folderName := if pyStrip c.folderName ≠ "" then some (pyStrip c.folderName) else none
          steps := []
          preConditions := normPre c.preConditions
          expectedResults := pyStrip c.expectedResults } := by
      unfold expICase
      rw [if_neg hA]
    by_cases hpre : c.preConditions = ""
    · have htc : (c.template : Int) ≠ 1 ∨ True := Or.inr trivial
      rw [henc, if_neg (by simp [hpre])]
      rw [hpre]
      simp only [ne_eq, not_true_eq_false, if_false, reduceIte]
      rw [List.singleton_append, List.foldlM_cons, decodeRow_mainRow m cur c _ _ hid]
      simp only [Option.bind_eq_bind, Option.some_bind]
      rw [hexp, hpre, normPre_empty]
      congr 1
      · congr 1
        unfold headerImage
        simp [pyStrip_empty, htitle, hid]
    · have ht0 : c.template = 0 := by
        rcases htemp with h0 | ⟨h1', h2'⟩
        · exact h0
        · rcases h2' with hne | hpe
          · exact absurd ⟨hne, h1'⟩ hA
          · exact absurd hpe hpre
      have htc : (c.template : Int) ≠ 1 := by
        rw [ht0]
        decide
      rw [henc, if_pos hpre]
      cases esp : pySplitOn '\n' c.preConditions with
      | nil => exact absurd esp (pySplitOn_ne_nil '\n' c.preConditions)
      | cons p0 rest =>
        rw [List.cons_append, List.foldlM_cons, decodeRow_mainRow m cur c _ _ hid]
        simp only [Option.bind_eq_bind, Option.some_bind]
        rw [headerImage_simple c p0 c.expectedResults htc, filterMap_pre]
        have hps : ∀ x ∈ (rest.map pyStrip).filter (fun q => q ≠ ""), pyStrip x = x ∧ x ≠ "" := by
          intro x hx
          have hx1 := List.mem_filter.mp hx
          obtain ⟨y, _, hy⟩ := List.mem_map.mp hx1.1
          constructor
          · rw [← hy]; exact pyStrip_pyStrip y
          · simpa using hx1.2
        rw [decode_cont_pre ((rest.map pyStrip).filter (fun q => q ≠ "")) _ (flushCase m cur)
          tail (by simp [htc]) hps]
        rw [hexp]
        have hnorm : ((rest.map pyStrip).filter (fun q => q ≠ "")).foldl appendPre (pyStrip p0) =
            normPre c.preConditions := by
          rw [foldl_appendPre _ _ (fun x hx => (hps x hx).2)]
          unfold normPre
          rw [esp, List.map_cons, List.filter_cons]
          by_cases hq : pyStrip p0 = ""
          · simp [hq]
          · simp [hq]
        rw [hnorm]
        congr 1
        congr 1
        simp [htitle, hid]

theorem decode_encodeCases (cs : List ExportCase) : (∀ c ∈ cs, CleanCase c) →
    ∀ (m : Mapping) (cur : Option ICase),
    List.foldlM decodeRow (m, cur) (encodeCases cs) =
    some (cs.foldl (fun p c => (flushCase p.1 p.2, some (expICase c))) (m, cur)) := by
  induction cs with
  | nil =>
    intro _ m cur
    simp [encodeCases]
  | cons c cs ih =>
    intro h m cur
    have hc := h c (by simp)
    have hsplit : encodeCases (c :: cs) = encodeCase c ++ encodeCases cs := by
      simp [encodeCases]
    rw [hsplit, decode_encodeCase c hc m cur (encodeCases cs),
      ih (fun x hx => h x (by simp [hx])), List.foldl_cons]

theorem flush_final (l : List ICase) : ∀ (m : Mapping) (cur : Option ICase),
    (fun p : Mapping × Option ICase => flushCase p.1 p.2)
        (l.foldl (fun p c => (flushCase p.1 p.2, some c)) (m, cur)) =
    l.foldl (fun mm c => addCase mm (getFolderKeyCase c) c) (flushCase m cur) := by
  induction l with
  | nil => intro m cur; rfl
  | cons c l ih =>
    intro m cur
    rw [List.foldl_cons, List.foldl_cons]
    exact ih (flushCase m cur) (some c)

theorem decodeRows_encodeCases (cs : List ExportCase) (h : ∀ c ∈ cs, CleanCase c) :
    decodeRows (encodeCases cs) = some (groupCases (cs.map expICase)) := by
  unfold decodeRows
  rw [decode_encodeCases cs h [] none, Option.map_some']
  congr 1
  rw [show (cs.foldl (fun p c => (flushCase p.1 p.2, some (expICase c)))
        (([] : Mapping), (none : Option ICase))) =
      ((cs.map expICase).foldl (fun p c => (flushCase p.1 p.2, some c)) ([], none)) from
    (List.foldl_map expICase (fun p c => (flushCase p.1 p.2, some c)) cs ([], none)).symm]
  exact flush_final (cs.map expICase) [] none

/-- C1, amended: decoding the encoding of any sequence of clean cases
(`CleanCase`: template 0 or 1, a stepwise case without steps carries no
preconditions, id non-blank and strip-invariant, title strip-invariant,
step numbers 1, 2, 3, … in order, step texts non-empty without trailing
whitespace, results strip-invariant) yields exactly the cases `expICase c`
grouped by folder key: `title`, `template`, the ordered step `result`s and
`stepNo`s, and — for simple cases — the `preConditions` text modulo the
join/split-on-newline normalization (`normPre`: lines stripped, blank lines
dropped) are all recovered, but each decoded step TEXT is
`"{stepNo}. " ++` the original text (the prefix added by the encoder is not
removed), and for stepwise cases the original `preConditions` text is
dropped (decoded as `""`). -/
theorem import_export_roundtrip (cs : List ExportCase) (h : ∀ c ∈ cs, CleanCase c) :
    import_from_csv (encodeCases cs) = groupCases (cs.map expICase) := by
  unfold import_from_csv
  rw [decodeRows_encodeCases cs h]
  rfl

/-- A stepwise exported case used to refute the verbatim round trip. -/
def rtCase : ExportCase :=
  { id := "1", title := "Login", state := 0, priority := 1, type_ := 0, automationStatus := 0
    description := "", preConditions := "Some pre", expectedResults := "", template := 1
    Steps := [⟨"Open page", "Page loads", 1⟩], folderId := none, folderName := ""
    createdAt := "", updatedAt := "" }

/-- C1, counterexample: decoding the encoding of `rtCase` does NOT return
the original step text — it returns `"1. Open page"` where the original was
`"Open page"` (the `"{stepNo}. "` prefix the encoder adds to the payload
cell is kept by the decoder) — and the stepwise case's `preConditions`
text `"Some pre"` is dropped entirely. -/
theorem import_export_roundtrip_counterexample :
    import_from_csv (encodeCases [rtCase]) =
      [("unassigned",
        [{ id := some "1", title := "Login", state := 0, priority := 1, type_ := 0,
           automationStatus := 0, description := "", template := 1, folderId := none,
           folderName := none, steps := [⟨"1. Open page", "Page loads", 1⟩],
           preConditions := "", expectedResults := "Page loads" }])] ∧
    rtCase.Steps.map ExpStep.step = ["Open page"] ∧
    ("1. Open page" : String) ≠ "Open page" ∧
    rtCase.preConditions = "Some pre" ∧ ("" : String) ≠ "Some pre" := by
  refine ⟨by decide, by decide, by decide, by decide, by decide⟩

/-- Clean witness cases: a stepwise case with two steps, a simple case with
messy multi-line preconditions, and a stepwise case with no steps and no
preconditions (zero extra payload items). -/
def rtwA : ExportCase :=
  { id := "3", title := "Login", state := 2, priority := 1, type_ := 3, automationStatus := 1
    description := " d ", preConditions := "", expectedResults := "er", template := 1
    Steps := [⟨"Open page", "Page loads", 1⟩, ⟨"Click", "r2", 2⟩], folderId := some 7
    folderName := "F", createdAt := "t1", updatedAt := "t2" }

def rtwB : ExportCase :=
  { id := "4", title := "Simple", state := 0, priority := 1, type_ := 0, automationStatus := 0
    description := "", preConditions := "  \nline one\n\n line two ", expectedResults := "er"
    template := 0, Steps := [], folderId := none, folderName := "", createdAt := ""
    updatedAt := "" }

def rtwC : ExportCase :=
  { id := "5", title := "Empty", state := 0, priority := 1, type_ := 0, automationStatus := 0
    description := "", preConditions := "", expectedResults := "er", template := 1
    Steps := [], folderId := some 0, folderName := "G", createdAt := "", updatedAt := "" }

/-- Witness for `import_export_roundtrip` on the three concrete cases. -/
theorem import_export_roundtrip_witness :
    (∀ c ∈ [rtwA, rtwB, rtwC], CleanCase c) ∧
    import_from_csv (encodeCases [rtwA, rtwB, rtwC]) =
      groupCases ([rtwA, rtwB, rtwC].map expICase) :=
  ⟨by decide, import_export_roundtrip [rtwA, rtwB, rtwC] (by decide)⟩

-- ### The folder reconciler and import orchestrator
-- (`FolderManager.validate_and_get_folder`, `TMSTool._import_cases_to_folder`,
-- `TMSTool.import_test_cases`)

/-- A remote folder (`{'id': ..., 'name': ..., 'detail': ...}`). -/
structure Folder where
  id : Int
  name : String
  detail : String
deriving DecidableEq, Repr

/-- The metadata dictionary sent to `create_case` (steps excluded). -/
structure CaseData where
  title : String
  state : Int
  priority : Int
  type_ : Int
  automationStatus : Int
  description : String
  template : Int
  preConditions : String
  expectedResults : String
deriving DecidableEq, Repr

/-- `case_data` as built in `_import_cases_to_folder`. -/
def caseData (c : ICase) : CaseData :=
  { title := c.title, state := c.state, priority := c.priority, type_ := c.type_
    automationStatus := c.automationStatus, description := c.description, template := c.template
    preConditions := c.preConditions, expectedResults := c.expectedResults }

/-- One step in the payload of the `steps/update` call. -/
structure ApiStep where
  id : Int
  step : String
  result : String
  uid : String
  editState : String
  stepNo : Nat
deriving DecidableEq, Repr

/-- The `api_steps` list: `id = 0`, `uid = f"uid{j}"` from the enumeration
index, `editState = 'new'`, `stepNo` from the decoded step. -/
def apiStepsAux : Nat → List IStep → List ApiStep
  | _, [] => []
  | j, s :: rest => ⟨0, s.step, s.result, "uid" ++ natRepr j, "new", s.stepNo⟩ :: apiStepsAux (j + 1) rest

def apiSteps (steps : List IStep) : List ApiStep := apiStepsAux 0 steps

/-- A remote request issued through `TMSClient`. -/
inductive RemoteCall where
  | getFolderById (folderId : Int)
  | createFolder (projectId : Int) (name detail : String)
  | getFolders (projectId : Int)
  | createCase (folderId : Int) (data : CaseData)
  | updateSteps (caseId : Int) (steps : List ApiStep)
deriving DecidableEq, Repr

/-- The remote collaborator (`TMSClient`) as a deterministic oracle; a `none`
or `false` result models the logged-and-swallowed transport failure of the
corresponding client method.  `defaultFolder` is the outcome of the
interactive `select_or_create_folder` for the `unassigned` group. -/
structure TMSEnv where
  getFolderById : Int → Option Folder
  createFolder : Int → String → String → Option Folder
  getFolders : Int → List Folder
  createCase : Int → CaseData → Option Int
  updateSteps : Int → List ApiStep → Bool
  defaultFolder : Option Folder

def importDetail : String := "Автоматически создана для импорта"

def importDetailAtImport : String := "Автоматически создана при импорте"

/-- `cache_key = f"{project_id}_{folder_id}"`. -/
def cacheKey (pid fid : Int) : String := intRepr pid ++ "_" ++ intRepr fid

/-- Lookup in `folders_cache` (a Python dict: first match on the key). -/
def lookupCache (cache : List (String × Folder)) (k : String) : Option Folder :=
  (cache.find? (fun p => p.1 == k)).map (fun p => p.2)

/-- `FolderManager.validate_and_get_folder`, returning the resolved folder,
the updated cache, and the list of remote calls issued.  On the id+name
match the folder is cached under `(projectId, declaredId)`; on the create
path it is cached under the NEW folder's id. -/
def validate_and_get_folder (env : TMSEnv) (cache : List (String × Folder))
    (pid fid : Int) (fname : String) :
    Option Folder × List (String × Folder) × List RemoteCall :=
  match lookupCache cache (cacheKey pid fid) with
  | some f => (some f, cache, [])
  | none =>
    match env.getFolderById fid with
    | some ef =>
      if ef.name = fname then
        (some ef, (cacheKey pid fid, ef) :: cache, [RemoteCall.getFolderById fid])
      else
        match env.createFolder pid fname importDetail with
        | some nf => (some nf, (cacheKey pid nf.id, nf) :: cache,
            [RemoteCall.getFolderById fid, RemoteCall.createFolder pid fname importDetail])
        | none => (none, cache,
            [RemoteCall.getFolderById fid, RemoteCall.createFolder pid fname importDetail])
    | none =>
      match env.createFolder pid fname importDetail with
      | some nf => (some nf, (cacheKey pid nf.id, nf) :: cache,
          [RemoteCall.getFolderById fid, RemoteCall.createFolder pid fname importDetail])
      | none => (none, cache,
          [RemoteCall.getFolderById fid, RemoteCall.createFolder pid fname importDetail])

/-- The body of the per-case loop of `_import_cases_to_folder`: create the
case (metadata only); on failure count an error; on success, for a stepwise
case with steps, push the steps via `steps/update` and count a success
whether or not the push succeeded. -/
def importOne (env : TMSEnv) (folder : Folder) (c : ICase) : (Nat × Nat) × List RemoteCall :=
  match env.createCase folder.id (caseData c) with
  | none => ((0, 1), [RemoteCall.createCase folder.id (caseData c)])
  | some cid =>
    if c.steps ≠ [] ∧ c.template = 1 then
      if env.updateSteps cid (apiSteps c.steps) then
        ((1, 0), [RemoteCall.createCase folder.id (caseData c),
                  RemoteCall.updateSteps cid (apiSteps c.steps)])
      else
        ((1, 0), [RemoteCall.createCase folder.id (caseData c),
                  RemoteCall.updateSteps cid (apiSteps c.steps)])
    else
      ((1, 0), [RemoteCall.createCase folder.id (caseData c)])

/-- `TMSTool._import_cases_to_folder`: fold the per-case outcomes into
`(success_count, error_count)`. -/
def import_cases_to_folder (env : TMSEnv) (folder : Folder) (cases : List ICase) : Nat × Nat :=
  cases.foldl (fun acc c =>
    (acc.1 + (importOne env folder c).1.1, acc.2 + (importOne env folder c).1.2)) (0, 0)

/-- `folders_map[name]` where the dict comprehension lets later duplicates
overwrite earlier ones: the LAST folder with the name wins. -/
def lastByName (fs : List Folder) (n : String) : Option Folder :=
  fs.reverse.find? (fun f => f.name == n)

def containsKey (m : Mapping) (k : String) : Bool := m.any (fun p => p.1 == k)

/-- The name-only branch of the group loop: look the name up in the live
folder map, else create the folder. -/
def importGroupByName (env : TMSEnv) (pid : Int) (cache : List (String × Folder))
    (succ errs : Nat) (fname : String) (cases : List ICase) :
    List (String × Folder) × Nat × Nat :=
  let target :=
    match lastByName (env.getFolders pid) fname with
    | some f => some f
    | none => env.createFolder pid fname importDetailAtImport
  match target with
  | some f =>
    let r := import_cases_to_folder env f cases
    (cache, succ + r.1, errs + r.2)
  | none => (cache, succ, errs + cases.length)

/-- One iteration of the group loop of `import_test_cases`.  The `df = none`
arm of the `unassigned` branch is unreachable: the caller returns before
the loop when the default folder could not be obtained. -/
def importGroup (env : TMSEnv) (pid : Int) (df : Option Folder)
    (st : List (String × Folder) × Nat × Nat) (g : String × List ICase) :
    List (String × Folder) × Nat × Nat :=
  let cache := st.1
  let succ := st.2.1
  let errs := st.2.2
  if g.1 = "unassigned" then
    match df with
    | some f =>
      let r := import_cases_to_folder env f g.2
      (cache, succ + r.1, errs + r.2)
    | none => (cache, succ, errs + g.2.length)
  else
    let parts := pySplitOn '|' g.1
    let fname := parts.getD 0 ""
    let fidStr := parts.getD 1 ""
    let fid : Option Int :=
      if fidStr ≠ "None" ∧ pyIsDigit fidStr then some (digitsVal fidStr.data : Int) else none
    match fid with
    | some i =>
      if i ≠ 0 then
        let r := validate_and_get_folder env cache pid i fname
        match r.1 with
        | some f =>
          let ri := import_cases_to_folder env f g.2
          (r.2.1, succ + ri.1, errs + ri.2)
        | none => (r.2.1, succ, errs + g.2.length)
      else importGroupByName env pid cache succ errs fname g.2
    | none => importGroupByName env pid cache succ errs fname g.2

/-- `TMSTool.import_test_cases` after the CSV has been decoded into
`cases_by_folder`: if an `unassigned` group exists and no default folder can
be obtained, the whole import returns early (`none`); otherwise the groups
are processed in order and the totals returned. -/
def import_test_cases (env : TMSEnv) (pid : Int) (m : Mapping) : Option (Nat × Nat) :=
  if containsKey m "unassigned" then
    match env.defaultFolder with
    | none => none
    | some df =>
      let r := m.foldl (importGroup env pid (some df)) ([], 0, 0)
      some (r.2.1, r.2.2)
  else
    let r := m.foldl (importGroup env pid none) ([], 0, 0)
    some (r.2.1, r.2.2)

-- ### Claims C2, C3, C5, C6

/-- C2, amended: when the `unassigned` group is present and no default
folder can be obtained, the ENTIRE import run is aborted before any group
is processed: `import_test_cases` returns early with no counts at all (no
group — not even the non-unassigned ones — is imported, and no errors are
counted). -/
theorem import_aborts_without_default (env : TMSEnv) (pid : Int) (m : Mapping)
    (hu : containsKey m "unassigned" = true) (hd : env.defaultFolder = none) :
    import_test_cases env pid m = none := by
  unfold import_test_cases
  rw [if_pos hu, hd]

/-- An environment in which every remote operation would succeed but no
default folder is obtained for the unassigned group. -/
def c2Env : TMSEnv :=
  { getFolderById := fun _ => none
    createFolder := fun _ n d => some ⟨9, n, d⟩
    getFolders := fun _ => []
    createCase := fun _ _ => some 1
    updateSteps := fun _ _ => true
    defaultFolder := none }

def c2CaseU : ICase :=
  { id := some "1", title := "T", state := 0, priority := 1, type_ := 0, automationStatus := 0
    description := "", template := 0, folderId := none, folderName := none, steps := []
    preConditions := "", expectedResults := "" }

def c2CaseD : ICase :=
  { id := some "2", title := "U", state := 0, priority := 1, type_ := 0, automationStatus := 0
    description := "", template := 0, folderId := none, folderName := some "Docs", steps := []
    preConditions := "", expectedResults := "" }

/-- C2, counterexample: with an `unassigned` group and no obtainable default
folder, the import returns `none` — the `"Docs|None"` group is NOT
processed and the unassigned case is NOT counted as an error (the claim
would require the run to continue and produce counts, e.g. `some (1, 1)`
here, since the `Docs` group would import fine in this environment). -/
theorem import_unassigned_no_default_counterexample :
    import_test_cases c2Env 1 [("unassigned", [c2CaseU]), ("Docs|None", [c2CaseD])] = none ∧
    (none : Option (Nat × Nat)) ≠ some (1, 1) := by
  refine ⟨by decide, by decide⟩

/-- Witness for `import_aborts_without_default`. -/
theorem import_aborts_without_default_witness :
    import_test_cases c2Env 1 [("unassigned", [c2CaseU])] = none :=
  import_aborts_without_default c2Env 1 [("unassigned", [c2CaseU])] (by decide) rfl

/-- C3, amended: `validate_and_get_folder` is idempotent for identical
arguments when the first call resolved through the id+name MATCH path (the
folder is then cached under `(projectId, declaredId)`): the second call
returns the identical folder object from the cache and issues no remote
call.  (When the first call resolves by CREATION the cache entry is keyed
by the new folder's id, so a repeated call misses the cache and repeats the
lookup and the creation — see the counterexample.) -/
theorem validate_and_get_folder_idempotent (env : TMSEnv) (cache : List (String × Folder))
    (pid fid : Int) (fname : String) (ef : Folder)
    (hmiss : lookupCache cache (cacheKey pid fid) = none)
    (hef : env.getFolderById fid = some ef) (hname : ef.name = fname) :
    validate_and_get_folder env cache pid fid fname =
      (some ef, (cacheKey pid fid, ef) :: cache, [RemoteCall.getFolderById fid]) ∧
    validate_and_get_folder env ((cacheKey pid fid, ef) :: cache) pid fid fname =
      (some ef, (cacheKey pid fid, ef) :: cache, []) := by
  constructor
  · simp [validate_and_get_folder, hmiss, hef, hname]
  · simp [validate_and_get_folder, lookupCache]

/-- An environment in which folder 5 exists remotely under a different name,
and folder creation succeeds with a fresh id 9. -/
def c3Env : TMSEnv :=
  { getFolderById := fun i => if i == 5 then some ⟨5, "Other", ""⟩ else none
    createFolder := fun _ n _ => some ⟨9, n, "d"⟩
    getFolders := fun _ => []
    createCase := fun _ _ => none
    updateSteps := fun _ _ => false
    defaultFolder := none }

/-- C3, counterexample: after a first `resolve(1, 5, "Login")` that resolved
by creation (name mismatch), the second call with identical arguments
misses the cache (which is keyed `"1_9"`, not `"1_5"`) and issues the
remote lookup AND another creation call — the claim's "issues no further
remote lookup or creation call" fails. -/
theorem validate_create_path_not_idempotent :
    (validate_and_get_folder c3Env [] 1 5 "Login").2.2 =
      [RemoteCall.getFolderById 5, RemoteCall.createFolder 1 "Login" importDetail] ∧
    (validate_and_get_folder c3Env
        (validate_and_get_folder c3Env [] 1 5 "Login").2.1 1 5 "Login").2.2 =
      [RemoteCall.getFolderById 5, RemoteCall.createFolder 1 "Login" importDetail] ∧
    (validate_and_get_folder c3Env
        (validate_and_get_folder c3Env [] 1 5 "Login").2.1 1 5 "Login").2.2 ≠ [] := by
  refine ⟨by decide, by decide, by decide⟩

/-- Witness for `validate_and_get_folder_idempotent` on a concrete
environment in which folder 5 exists with the matching name. -/
def c3MatchEnv : TMSEnv :=
  { getFolderById := fun i => if i == 5 then some ⟨5, "Login", ""⟩ else none
    createFolder := fun _ n _ => some ⟨9, n, "d"⟩
    getFolders := fun _ => []
    createCase := fun _ _ => none
    updateSteps := fun _ _ => false
    defaultFolder := none }

theorem validate_and_get_folder_idempotent_witness :
    validate_and_get_folder c3MatchEnv [] 1 5 "Login" =
      (some ⟨5, "Login", ""⟩, [(cacheKey 1 5, ⟨5, "Login", ""⟩)], [RemoteCall.getFolderById 5]) ∧
    validate_and_get_folder c3MatchEnv [(cacheKey 1 5, ⟨5, "Login", ""⟩)] 1 5 "Login" =
      (some ⟨5, "Login", ""⟩, [(cacheKey 1 5, ⟨5, "Login", ""⟩)], []) :=
  validate_and_get_folder_idempotent c3MatchEnv [] 1 5 "Login" ⟨5, "Login", ""⟩ rfl rfl rfl

/-- C5: on a fresh cache entry, whenever the folder fetched by the declared
id is absent or carries a name different from the declared one, the
function never returns that mismatched folder: its result is exactly the
result of the `create_folder(projectId, declaredName, ...)` call (the newly
created folder when the remote call succeeds, `None` when it fails — no
exception is ever raised, the model being a total function), and the calls
issued are the lookup followed by the creation. -/
theorem validate_mismatch_creates (env : TMSEnv) (cache : List (String × Folder))
    (pid fid : Int) (fname : String)
    (hmiss : lookupCache cache (cacheKey pid fid) = none)
    (hmm : ∀ ef, env.getFolderById fid = some ef → ef.name ≠ fname) :
    (validate_and_get_folder env cache pid fid fname).1 =
      env.createFolder pid fname importDetail ∧
    (validate_and_get_folder env cache pid fid fname).2.2 =
      [RemoteCall.getFolderById fid, RemoteCall.createFolder pid fname importDetail] := by
  unfold validate_and_get_folder
  rw [hmiss]
  cases hef : env.getFolderById fid with
  | none =>
    cases hcf : env.createFolder pid fname importDetail <;> simp [hcf]
  | some ef =>
    have hne := hmm ef hef
    cases hcf : env.createFolder pid fname importDetail <;> simp [hne, hcf]

/-- Witness for `validate_mismatch_creates` in `c3Env` (folder 5 exists as
"Other", the declared name is "Login"). -/
theorem validate_mismatch_creates_witness :
    (validate_and_get_folder c3Env [] 1 5 "Login").1 =
      c3Env.createFolder 1 "Login" importDetail ∧
    (validate_and_get_folder c3Env [] 1 5 "Login").2.2 =
      [RemoteCall.getFolderById 5, RemoteCall.createFolder 1 "Login" importDetail] :=
  validate_mismatch_creates c3Env [] 1 5 "Login" rfl
    (fun ef h => by
      rw [show c3Env.getFolderById 5 = some ⟨5, "Other", ""⟩ from rfl] at h
      rw [← Option.some.inj h]
      decide)

theorem apiStepsAux_new : ∀ (j : Nat) (l : List IStep) (a : ApiStep),
    a ∈ apiStepsAux j l → a.id = 0 ∧ a.editState = "new" := by
  intro j l
  induction l generalizing j with
  | nil => intro a ha; simp [apiStepsAux] at ha
  | cons s rest ih =>
    intro a ha
    rw [apiStepsAux, List.mem_cons] at ha
    rcases ha with rfl | ha
    · exact ⟨rfl, rfl⟩
    · exact ih (j + 1) a ha

theorem foldl_counts_shift (env : TMSEnv) (f : Folder) :
    ∀ (l : List ICase) (a b : Nat),
    l.foldl (fun acc c =>
        (acc.1 + (importOne env f c).1.1, acc.2 + (importOne env f c).1.2)) (a, b) =
    (a + (import_cases_to_folder env f l).1, b + (import_cases_to_folder env f l).2) := by
  intro l
  induction l with
  | nil => intro a b; simp [import_cases_to_folder]
  | cons c l ih =>
    intro a b
    rw [List.foldl_cons, ih]
    have : import_cases_to_folder env f (c :: l) =
        ((importOne env f c).1.1 + (import_cases_to_folder env f l).1,
         (importOne env f c).1.2 + (import_cases_to_folder env f l).2) := by
      unfold import_cases_to_folder
      rw [List.foldl_cons, ih]
      simp [import_cases_to_folder]
    rw [this]
    simp [Nat.add_assoc]

/-- C6: per case in `_import_cases_to_folder` — (1) if the remote case
creation fails the case contributes `(0 errors→1, success 0)` with only the
creation call issued, and processing moves to the next case (the totals for
`c :: rest` decompose as this case's outcome plus the rest's); (2) if
creation succeeds and `template = 1` and the steps are non-empty, a
separate `steps/update` call with the synthetic `id = 0`/`editState='new'`
payload is issued and the case counts as ONE success whatever that push
returns — in particular also when the push fails. -/
theorem importOne_spec (env : TMSEnv) (f : Folder) (c : ICase) :
    (env.createCase f.id (caseData c) = none →
      importOne env f c = ((0, 1), [RemoteCall.createCase f.id (caseData c)])) ∧
    (∀ cid, env.createCase f.id (caseData c) = some cid → c.template = 1 → c.steps ≠ [] →
      importOne env f c =
        ((1, 0), [RemoteCall.createCase f.id (caseData c),
                  RemoteCall.updateSteps cid (apiSteps c.steps)])) ∧
    (∀ a ∈ apiSteps c.steps, a.id = 0 ∧ a.editState = "new") ∧
    (∀ rest : List ICase, import_cases_to_folder env f (c :: rest) =
      ((importOne env f c).1.1 + (import_cases_to_folder env f rest).1,
       (importOne env f c).1.2 + (import_cases_to_folder env f rest).2)) := by
  refine ⟨?_, ?_, ?_, ?_⟩
  · intro hn
    unfold importOne
    rw [hn]
  · intro cid hs ht hne
    unfold importOne
    rw [hs]
    cases hup : env.updateSteps cid (apiSteps c.steps) <;> simp [hne, ht, hup]
  · intro a ha
    exact apiStepsAux_new 0 c.steps a ha
  · intro rest
    unfold import_cases_to_folder
    rw [List.foldl_cons]
    simp only [Nat.zero_add]
    exact foldl_counts_shift env f rest _ _

/-- Environment and cases for the `importOne_spec` witness: creation fails
for the case titled "bad", succeeds with id 7 otherwise, and every step
push fails. -/
def c6Env : TMSEnv :=
  { getFolderById := fun _ => none
    createFolder := fun _ _ _ => none
    getFolders := fun _ => []
    createCase := fun _ d => if d.title == "bad" then none else some 7
    updateSteps := fun _ _ => false
    defaultFolder := none }

def c6Folder : Folder := ⟨3, "F", ""⟩

def c6Bad : ICase :=
  { id := some "1", title := "bad", state := 0, priority := 1, type_ := 0, automationStatus := 0
    description := "", template := 1, folderId := none, folderName := none
    steps := [⟨"s", "r", 1⟩], preConditions := "", expectedResults := "" }

def c6Good : ICase :=
  { id := some "2", title := "ok", state := 0, priority := 1, type_ := 0, automationStatus := 0
    description := "", template := 1, folderId := none, folderName := none
    steps := [⟨"s", "r", 1⟩], preConditions := "", expectedResults := "" }

/-- Witness for `importOne_spec`: the failing creation counts an error; the
successful creation with a FAILING step push still counts a success and
issued the update call; the two-case batch totals decompose to `(1, 1)`. -/
theorem importOne_spec_witness :
    importOne c6Env c6Folder c6Bad = ((0, 1), [RemoteCall.createCase 3 (caseData c6Bad)]) ∧
    importOne c6Env c6Folder c6Good =
      ((1, 0), [RemoteCall.createCase 3 (caseData c6Good),
                RemoteCall.updateSteps 7 (apiSteps c6Good.steps)]) ∧
    c6Env.updateSteps 7 (apiSteps c6Good.steps) = false ∧
    import_cases_to_folder c6Env c6Folder [c6Bad, c6Good] = (1, 1) :=
  ⟨(importOne_spec c6Env c6Folder c6Bad).1 (by decide),
   (importOne_spec c6Env c6Folder c6Good).2.1 7 (by decide) (by decide) (by decide),
   by decide,
   by decide⟩
